import Mathlib

/-!
Verification of the activity/metrics monitoring subsystem of the
Data Bridge / Data Analyst repository, together with the dashboard
client's overview and upload logic.

The backend `server.py` (the `_record_activity` recorder, the
`/api/metrics` and `/api/activity` handlers) is not present in the
repository snapshot — only its README documentation, its callers and the
test scripts are.  Following the stated convention, the recorder is
modelled from the spec (see the `Modelled from the spec:` doc comments).
The dashboard client code (`fetchOverview`, `handleUpload`,
`handleAnalyze`) is present and is embedded directly from the source.

Timestamps are modelled as natural numbers drawn from a logical clock
that advances by one per recorded event; this realises the spec's
"monotonically non-decreasing in the recorder's own insertion order"
without modelling wall-clock time.
-/

/-- Modelled from the spec: an `ActivityEvent` — the backend data model of
section 3 (`server.py` is missing from the snapshot).  `id` is a fresh
identifier, `kind` an open string, `status` an HTTP-style integer code,
`timestamp` the recorder-assigned creation time, `metadata` an open
key-value attachment. -/
structure ActivityEvent where
  id : Nat
  kind : String
  status : Nat
  timestamp : Nat
  metadata : List (String × String)
deriving DecidableEq

/-- Modelled from the spec: the `CountersSnapshot` of section 3 —
process-lifetime counters plus the optional timestamp of the most recent
event. -/
structure CountersSnapshot where
  total_analyze_requests : Nat
  total_file_uploads : Nat
  total_errors : Nat
  last_request_at : Option Nat
  activity_count : Nat
deriving DecidableEq

/-- Modelled from the spec: one `record(kind, status, metadata)` call,
together with the durable store's health at the moment of the call's
best-effort persistence attempt (the environment's contribution). -/
structure RecCall where
  kind : String
  status : Nat
  metadata : List (String × String)
  dbHealthy : Bool
deriving DecidableEq

/-- Modelled from the spec: the in-process state of the `ActivityRecorder`
(`server.py` is missing): counters, the bounded in-memory ring buffer
(oldest first, newest last), the durable `activity_logs` collection in
insertion order, and a logical clock supplying fresh ids and timestamps. -/
structure RecorderState where
  capacity : Nat
  counters : CountersSnapshot
  ring : List ActivityEvent
  durable : List ActivityEvent
  clock : Nat
deriving DecidableEq

/-- Counters at process start: all zero, `last_request_at` absent. -/
def initCounters : CountersSnapshot :=
  ⟨0, 0, 0, none, 0⟩

/-- Modelled from the spec: recorder state at process start with ring
capacity `C` — counters zero, both event views empty. -/
def initState (C : Nat) : RecorderState :=
  ⟨C, initCounters, [], [], 0⟩

/-- Modelled from the spec: the glossary's ring buffer — "a fixed-capacity
sequence where inserting past capacity evicts the oldest entry".  The
oldest entry is the head of the list. -/
def ringPush (C : Nat) (l : List α) (e : α) : List α :=
  if l.length < C then l ++ [e] else l.drop 1 ++ [e]

/-- The last `n` elements of a list (all of it when it is shorter). -/
def lastN (n : Nat) (l : List α) : List α :=
  l.drop (l.length - n)

/-- Modelled from the spec: step 1 of `record` — construct an
`ActivityEvent` with a fresh id and the current timestamp. -/
def mkEvent (st : RecorderState) (c : RecCall) : ActivityEvent :=
  ⟨st.clock, c.kind, c.status, st.clock, c.metadata⟩

/-- Modelled from the spec: step 2 of `record` — increment
`activity_count`; increment `total_analyze_requests` when
`kind = "analyze"`; increment `total_file_uploads` when
`kind = "upload"`; increment `total_errors` when `status ≥ 400`;
set `last_request_at` to this event's timestamp. -/
def bumpCounters (cs : CountersSnapshot) (kind : String) (status : Nat) (ts : Nat) :
    CountersSnapshot where
  total_analyze_requests := cs.total_analyze_requests + (if kind = "analyze" then 1 else 0)
  total_file_uploads := cs.total_file_uploads + (if kind = "upload" then 1 else 0)
  total_errors := cs.total_errors + (if 400 ≤ status then 1 else 0)
  last_request_at := some ts
  activity_count := cs.activity_count + 1

/-- Modelled from the spec: `record(kind, status, metadata)` from section
4.1 (`_record_activity` in the missing `server.py`): synchronously update
the counters, append to the bounded ring buffer, then attempt best-effort
persistence — a failed durable write (`dbHealthy = false`) is dropped,
leaving everything but the durable log exactly as in the healthy case. -/
def record (c : RecCall) (st : RecorderState) : RecorderState :=
  { st with
    counters := bumpCounters st.counters c.kind c.status st.clock
    ring := ringPush st.capacity st.ring (mkEvent st c)
    durable := if c.dbHealthy then st.durable ++ [mkEvent st c] else st.durable
    clock := st.clock + 1 }

/-- Run a sequence of `record` calls from a given state. -/
def runFrom (st : RecorderState) : List RecCall → RecorderState
  | [] => st
  | c :: cs => runFrom (record c st) cs

/-- Run a sequence of `record` calls in a fresh process with ring
capacity `C`. -/
def runRecords (C : Nat) (calls : List RecCall) : RecorderState :=
  runFrom (initState C) calls

/-- Modelled from the spec: `getCounters()` — the current snapshot. -/
def getCounters (st : RecorderState) : CountersSnapshot :=
  st.counters

/-- The events a sequence of calls creates, in insertion order, when the
recorder's clock starts at `n`: the i-th call yields id and timestamp
`n + i`. -/
def eventsFrom : Nat → List RecCall → List ActivityEvent
  | _, [] => []
  | n, c :: cs => ⟨n, c.kind, c.status, n, c.metadata⟩ :: eventsFrom (n + 1) cs

/-- The events a call sequence creates in a fresh process. -/
def eventsOf (calls : List RecCall) : List ActivityEvent :=
  eventsFrom 0 calls

lemma eventsFrom_length (calls : List RecCall) : ∀ n, (eventsFrom n calls).length = calls.length := by
  induction calls with
  | nil => intro n; rfl
  | cons c cs ih => intro n; simp [eventsFrom, ih]

lemma eventsFrom_append (l1 l2 : List RecCall) : ∀ n,
    eventsFrom n (l1 ++ l2) = eventsFrom n l1 ++ eventsFrom (n + l1.length) l2 := by
  induction l1 with
  | nil => intro n; simp [eventsFrom]
  | cons c cs ih =>
    intro n
    simp only [List.cons_append, eventsFrom, List.length_cons, List.append_eq]
    rw [ih (n + 1), show n + (cs.length + 1) = n + 1 + cs.length from by omega]

lemma eventsFrom_getLast_ts (calls : List RecCall) (n : Nat) :
    ((eventsFrom n calls).getLast?).map (fun e => e.timestamp) =
      if calls.isEmpty then none else some (n + (calls.length - 1)) := by
  rcases List.eq_nil_or_concat calls with h | ⟨cs, c, h⟩
  · subst h; rfl
  · subst h
    rw [List.concat_eq_append, eventsFrom_append]
    simp [eventsFrom, List.getLast?_concat]

lemma counters_runFrom (calls : List RecCall) : ∀ st : RecorderState,
    ((runFrom st calls).counters.activity_count
        = st.counters.activity_count + calls.length)
    ∧ ((runFrom st calls).counters.total_analyze_requests
        = st.counters.total_analyze_requests
            + calls.countP (fun c => decide (c.kind = "analyze")))
    ∧ ((runFrom st calls).counters.total_file_uploads
        = st.counters.total_file_uploads
            + calls.countP (fun c => decide (c.kind = "upload")))
    ∧ ((runFrom st calls).counters.total_errors
        = st.counters.total_errors + calls.countP (fun c => decide (400 ≤ c.status)))
    ∧ ((runFrom st calls).counters.last_request_at
        = if calls.isEmpty then st.counters.last_request_at
          else some (st.clock + (calls.length - 1))) := by
  induction calls with
  | nil => intro st; simp [runFrom]
  | cons c cs ih =>
    intro st
    obtain ⟨h1, h2, h3, h4, h5⟩ := ih (record c st)
    refine ⟨?_, ?_, ?_, ?_, ?_⟩
    · rw [runFrom, h1]; simp [record, bumpCounters]; omega
    · rw [runFrom, h2]; simp [record, bumpCounters, List.countP_cons]
      by_cases h : c.kind = "analyze" <;> simp [h] <;> omega
    · rw [runFrom, h3]; simp [record, bumpCounters, List.countP_cons]
      by_cases h : c.kind = "upload" <;> simp [h] <;> omega
    · rw [runFrom, h4]; simp [record, bumpCounters, List.countP_cons]
      by_cases h : 400 ≤ c.status <;> simp [h] <;> omega
    · rw [runFrom, h5]
      cases cs with
      | nil => simp [record, bumpCounters]
      | cons d ds =>
        simp only [List.isEmpty_cons, if_false, Bool.false_eq_true, record, List.length_cons]
        congr 1
        omega

/-- Each of the four counters never decreases across a single `record`
call. -/
lemma counters_mono (c : RecCall) (st : RecorderState) :
    st.counters.activity_count ≤ (record c st).counters.activity_count
    ∧ st.counters.total_analyze_requests ≤ (record c st).counters.total_analyze_requests
    ∧ st.counters.total_file_uploads ≤ (record c st).counters.total_file_uploads
    ∧ st.counters.total_errors ≤ (record c st).counters.total_errors := by
  simp only [record, bumpCounters]
  refine ⟨by omega, by omega, by omega, by omega⟩

/-- C1: after any sequence of `record` calls in one process lifetime,
`activity_count` is the number of calls, `total_analyze_requests` counts
the calls with kind `"analyze"`, `total_file_uploads` the calls with kind
`"upload"`, `total_errors` the calls with status ≥ 400 regardless of
kind, and `last_request_at` is the timestamp of the most recent event, or
absent when no call was made; moreover every counter is non-decreasing
from one call to the next. -/
theorem C1_counters_exact_and_monotone (C : Nat) (calls : List RecCall) :
    (getCounters (runRecords C calls)).activity_count = calls.length
    ∧ (getCounters (runRecords C calls)).total_analyze_requests
        = calls.countP (fun c => decide (c.kind = "analyze"))
    ∧ (getCounters (runRecords C calls)).total_file_uploads
        = calls.countP (fun c => decide (c.kind = "upload"))
    ∧ (getCounters (runRecords C calls)).total_errors
        = calls.countP (fun c => decide (400 ≤ c.status))
    ∧ (getCounters (runRecords C calls)).last_request_at
        = ((eventsOf calls).getLast?).map (fun e => e.timestamp)
    ∧ (∀ (c : RecCall) (st : RecorderState),
        (getCounters st).activity_count ≤ (getCounters (record c st)).activity_count
        ∧ (getCounters st).total_analyze_requests
            ≤ (getCounters (record c st)).total_analyze_requests
        ∧ (getCounters st).total_file_uploads
            ≤ (getCounters (record c st)).total_file_uploads
        ∧ (getCounters st).total_errors ≤ (getCounters (record c st)).total_errors) := by
  obtain ⟨h1, h2, h3, h4, h5⟩ := counters_runFrom calls (initState C)
  refine ⟨?_, ?_, ?_, ?_, ?_, ?_⟩
  · rw [getCounters, runRecords, h1]; simp [initState, initCounters]
  · rw [getCounters, runRecords, h2]; simp [initState, initCounters]
  · rw [getCounters, runRecords, h3]; simp [initState, initCounters]
  · rw [getCounters, runRecords, h4]; simp [initState, initCounters]
  · rw [getCounters, runRecords, h5, eventsOf, eventsFrom_getLast_ts calls 0]
    cases calls <;> simp [initState, initCounters, eventsFrom]
  · intro c st
    exact counters_mono c st

lemma lastN_of_le {l : List α} (h : l.length ≤ n) : lastN n l = l := by
  rw [lastN, Nat.sub_eq_zero_of_le h, List.drop_zero]

lemma lastN_length_le (n : Nat) (l : List α) : (lastN n l).length ≤ n := by
  rw [lastN, List.length_drop]
  omega

/-- Pushing onto a ring buffer that respects its capacity keeps exactly
the last `C` elements of the extended sequence. -/
lemma ringPush_eq_lastN (hC : 0 < C) (h : l.length ≤ C) (e : α) :
    ringPush C l e = lastN C (l ++ [e]) := by
  rw [ringPush]
  by_cases hl : l.length < C
  · rw [if_pos hl, lastN_of_le]
    simp only [List.length_append, List.length_singleton]
    omega
  · have hlen : l.length = C := by omega
    rw [if_neg hl, lastN, List.length_append, List.length_singleton,
      show l.length + 1 - C = 1 from by omega,
      List.drop_append_of_le_length (by omega)]

lemma ringPush_length_le (hC : 0 < C) (h : l.length ≤ C) (e : α) :
    (ringPush C l e).length ≤ C := by
  rw [ringPush_eq_lastN hC h]
  exact lastN_length_le C _

lemma lastN_append_lastN (n : Nat) (l t : List α) :
    lastN n (lastN n l ++ t) = lastN n (l ++ t) := by
  simp only [lastN]
  rw [← List.drop_append_of_le_length (Nat.sub_le l.length n)]
  rw [List.drop_drop]
  congr 1
  simp only [List.length_append, List.length_drop]
  omega

/-- The ring buffer after any run holds the last `capacity` of all events
inserted so far. -/
lemma ring_runFrom (calls : List RecCall) : ∀ st : RecorderState,
    0 < st.capacity → st.ring.length ≤ st.capacity →
    (runFrom st calls).ring = lastN st.capacity (st.ring ++ eventsFrom st.clock calls) := by
  induction calls with
  | nil =>
    intro st hC h
    rw [runFrom, eventsFrom, List.append_nil, lastN_of_le h]
  | cons c cs ih =>
    intro st hC h
    rw [runFrom, ih (record c st) (by simpa [record] using hC)
      (by simpa [record] using ringPush_length_le hC h (mkEvent st c))]
    show lastN st.capacity (ringPush st.capacity st.ring (mkEvent st c)
        ++ eventsFrom (st.clock + 1) cs) = _
    rw [ringPush_eq_lastN hC h, lastN_append_lastN, List.append_assoc,
      List.singleton_append]
    rfl

/-- C3: the synchronous part of `record` (counter update and ring-buffer
append) is exactly the same whether the durable write succeeds or fails;
a failed durable write is simply dropped (no retry, durable log
untouched), while a successful one appends exactly the new event. -/
theorem C3_best_effort_persistence (c : RecCall) (st : RecorderState) :
    (record { c with dbHealthy := false } st).counters
        = (record { c with dbHealthy := true } st).counters
    ∧ (record { c with dbHealthy := false } st).ring
        = (record { c with dbHealthy := true } st).ring
    ∧ (record { c with dbHealthy := false } st).durable = st.durable
    ∧ (record { c with dbHealthy := true } st).durable = st.durable ++ [mkEvent st c]
    ∧ getCounters (record { c with dbHealthy := false } st)
        = getCounters (record { c with dbHealthy := true } st)
    ∧ (record c st).counters = bumpCounters st.counters c.kind c.status st.clock
    ∧ (record c st).ring = ringPush st.capacity st.ring (mkEvent st c) := by
  refine ⟨rfl, rfl, ?_, ?_, rfl, rfl, rfl⟩
  · simp [record]
  · simp [record, mkEvent]

/-- C4: with a positive ring capacity `C`, after at least `C` `record`
calls the ring buffer holds exactly the `C` most recently inserted
events (its length is exactly `C`), and an insertion at capacity evicts
the oldest (head) entry. -/
theorem C4_ring_capacity (C : Nat) (hC : 0 < C) (calls : List RecCall)
    (h : C < calls.length) :
    (runRecords C calls).ring = (eventsOf calls).drop (calls.length - C)
    ∧ (runRecords C calls).ring.length = C
    ∧ (∀ (l : List ActivityEvent) (e : ActivityEvent), l.length = C →
        ringPush C l e = l.drop 1 ++ [e]) := by
  have hr := ring_runFrom calls (initState C) (by simpa [initState] using hC)
    (by simp [initState])
  rw [runRecords] at *
  refine ⟨?_, ?_, ?_⟩
  · rw [hr]
    simp [initState, lastN, eventsOf, eventsFrom_length]
  · rw [hr]
    simp only [initState, lastN, List.length_drop, List.nil_append, eventsFrom_length]
    omega
  · intro l e hl
    rw [ringPush, if_neg (by omega)]

/-- A concrete `record` call used by the witnesses. -/
def sampleCall (k : String) (s : Nat) (healthy : Bool) : RecCall :=
  ⟨k, s, [], healthy⟩

theorem C4_ring_capacity_witness :
    (runRecords 1 [sampleCall "analyze" 200 true, sampleCall "upload" 500 false]).ring
      = (eventsOf [sampleCall "analyze" 200 true, sampleCall "upload" 500 false]).drop 1 :=
  (C4_ring_capacity 1 (by decide)
    [sampleCall "analyze" 200 true, sampleCall "upload" 500 false] (by decide)).1

/-- Timestamps strictly ascending along a list (oldest first). -/
def tsAsc (l : List ActivityEvent) : Prop :=
  l.Pairwise (fun a b => a.timestamp < b.timestamp)

/-- Internal invariant: both event views are in ascending timestamp
order and every stored timestamp is below the clock. -/
def RecInv (st : RecorderState) : Prop :=
  tsAsc st.ring ∧ (∀ e ∈ st.ring, e.timestamp < st.clock)
    ∧ tsAsc st.durable ∧ (∀ e ∈ st.durable, e.timestamp < st.clock)

lemma tsAsc_ringPush {l : List ActivityEvent} {e : ActivityEvent} (C : Nat)
    (h : tsAsc l) (hb : ∀ x ∈ l, x.timestamp < e.timestamp) :
    tsAsc (ringPush C l e) := by
  have key : ∀ l' : List ActivityEvent, List.Sublist l' l → tsAsc (l' ++ [e]) := by
    intro l' hsub
    rw [tsAsc, List.pairwise_append]
    refine ⟨List.Pairwise.sublist hsub h, List.pairwise_singleton _ _, ?_⟩
    intro x hx y hy
    rw [List.mem_singleton] at hy
    subst hy
    exact hb x (hsub.subset hx)
  rw [ringPush]
  split
  · exact key l (List.Sublist.refl l)
  · exact key _ (List.drop_sublist 1 l)

lemma mem_ringPush {l : List α} {e x : α} (C : Nat) (h : x ∈ ringPush C l e) :
    x ∈ l ∨ x = e := by
  rw [ringPush] at h
  split at h
  · rcases List.mem_append.mp h with h' | h'
    · exact Or.inl h'
    · exact Or.inr (List.mem_singleton.mp h')
  · rcases List.mem_append.mp h with h' | h'
    · exact Or.inl ((List.drop_sublist 1 l).subset h')
    · exact Or.inr (List.mem_singleton.mp h')

lemma recInv_record (c : RecCall) (st : RecorderState) (h : RecInv st) :
    RecInv (record c st) := by
  obtain ⟨h1, h2, h3, h4⟩ := h
  refine ⟨?_, ?_, ?_, ?_⟩
  · exact tsAsc_ringPush st.capacity h1 (fun x hx => h2 x hx)
  · intro e he
    rcases mem_ringPush st.capacity he with h' | h'
    · exact Nat.lt_succ_of_lt (h2 e h')
    · subst h'; exact Nat.lt_succ_self _
  · show tsAsc (if c.dbHealthy then st.durable ++ [mkEvent st c] else st.durable)
    split
    · rw [tsAsc, List.pairwise_append]
      refine ⟨h3, List.pairwise_singleton _ _, ?_⟩
      intro x hx y hy
      rw [List.mem_singleton] at hy
      subst hy
      exact h4 x hx
    · exact h3
  · intro e he
    show e.timestamp < st.clock + 1
    rw [record] at he
    simp only at he
    split at he
    · rcases List.mem_append.mp he with h' | h'
      · exact Nat.lt_succ_of_lt (h4 e h')
      · rw [List.mem_singleton] at h'; subst h'; exact Nat.lt_succ_self _
    · exact Nat.lt_succ_of_lt (h4 e he)

lemma recInv_runFrom (calls : List RecCall) : ∀ st : RecorderState,
    RecInv st → RecInv (runFrom st calls) := by
  induction calls with
  | nil => intro st h; exact h
  | cons c cs ih => intro st h; exact ih (record c st) (recInv_record c st h)

lemma recInv_init (C : Nat) : RecInv (initState C) := by
  refine ⟨List.Pairwise.nil, ?_, List.Pairwise.nil, ?_⟩ <;> intro e he <;> cases he

/-- Modelled from the spec: the raw `limit` query value of
`GET /api/activity` — absent, an integer, or malformed. -/
inductive RawLimit where
  | missing : RawLimit
  | val : Int → RawLimit
  | malformed : RawLimit
deriving DecidableEq

/-- Modelled from the spec: the "sane maximum" response size the spec
asks the read path to clamp to (the spec fixes no number; 200 is the
model's choice of constant). -/
def MAX_LIMIT : Nat := 200

/-- Modelled from the spec: `limit` handling of `getRecentActivity` —
"positive integer, default 50, should be clamped to a sane maximum";
malformed or non-positive values are clamped, never raised on. -/
def clampLimit : RawLimit → Nat
  | RawLimit.missing => 50
  | RawLimit.malformed => 50
  | RawLimit.val i => if i < 1 then 1 else min i.toNat MAX_LIMIT

/-- Modelled from the spec: `getRecentActivity(limit)` — read the most
recent `limit` events, newest first, from the durable store when it is
available, otherwise from the in-memory ring buffer; exactly one source
per call, never a merge. -/
def getRecentActivity (limitRaw : RawLimit) (dbAvailable : Bool) (st : RecorderState) :
    List ActivityEvent :=
  if dbAvailable then st.durable.reverse.take (clampLimit limitRaw)
  else st.ring.reverse.take (clampLimit limitRaw)

lemma clampLimit_pos (r : RawLimit) : 1 ≤ clampLimit r := by
  cases r with
  | missing => decide
  | malformed => decide
  | val i =>
    rw [clampLimit]
    split
    · exact Nat.le_refl 1
    · rw [MAX_LIMIT]; omega

lemma clampLimit_le (r : RawLimit) : clampLimit r ≤ MAX_LIMIT := by
  cases r with
  | missing => decide
  | malformed => decide
  | val i =>
    rw [clampLimit]
    split
    · decide
    · exact Nat.min_le_right _ _

/-- C5: the list returned by `getRecentActivity` is sorted by timestamp
in descending order (newest first), for both possible sources. -/
theorem C5_output_newest_first (C : Nat) (calls : List RecCall)
    (limitRaw : RawLimit) (db : Bool) :
    (getRecentActivity limitRaw db (runRecords C calls)).Pairwise
      (fun a b => b.timestamp ≤ a.timestamp) := by
  obtain ⟨h1, _, h3, _⟩ := recInv_runFrom calls (initState C) (recInv_init C)
  rw [getRecentActivity]
  have key : ∀ l : List ActivityEvent, tsAsc l →
      (l.reverse.take (clampLimit limitRaw)).Pairwise
        (fun a b => b.timestamp ≤ a.timestamp) := by
    intro l hl
    apply List.Pairwise.sublist (List.take_sublist _ _)
    rw [List.pairwise_reverse]
    exact hl.imp (fun hab => Nat.le_of_lt hab)
  split
  · exact key _ h3
  · exact key _ h1

/-- C2: when the durable store is unavailable for reads,
`getRecentActivity` does not raise (it is total) and returns the most
recent `≤ limit` events of the in-memory ring buffer, newest first;
every returned element comes from the ring buffer alone, and when the
store is available every returned element comes from the durable log
alone — the two sources are never merged. -/
theorem C2_fallback_read (limitRaw : RawLimit) (C : Nat) (hC : 0 < C)
    (calls : List RecCall) :
    getRecentActivity limitRaw false (runRecords C calls)
        = (eventsOf calls).reverse.take
            (min (clampLimit limitRaw) (min C calls.length))
    ∧ (getRecentActivity limitRaw false (runRecords C calls)).length
        ≤ clampLimit limitRaw
    ∧ (∀ e ∈ getRecentActivity limitRaw false (runRecords C calls),
        e ∈ (runRecords C calls).ring)
    ∧ getRecentActivity limitRaw true (runRecords C calls)
        = (runRecords C calls).durable.reverse.take (clampLimit limitRaw)
    ∧ (∀ e ∈ getRecentActivity limitRaw true (runRecords C calls),
        e ∈ (runRecords C calls).durable) := by
  have hr := ring_runFrom calls (initState C) (by simpa [initState] using hC)
    (by simp [initState])
  refine ⟨?_, ?_, ?_, ?_, ?_⟩
  · rw [getRecentActivity, if_neg (by simp), runRecords, hr]
    simp only [initState, List.nil_append, lastN]
    rw [List.reverse_drop, List.take_take, eventsFrom_length, eventsOf]
    congr 1
    omega
  · rw [getRecentActivity, if_neg (by simp)]
    rw [List.length_take]
    exact Nat.min_le_left _ _
  · intro e he
    rw [getRecentActivity, if_neg (by simp)] at he
    exact List.mem_reverse.mp ((List.take_sublist _ _).subset he)
  · rw [getRecentActivity, if_pos rfl]
  · intro e he
    rw [getRecentActivity, if_pos rfl] at he
    exact List.mem_reverse.mp ((List.take_sublist _ _).subset he)

theorem C2_fallback_read_witness :
    getRecentActivity RawLimit.missing false
        (runRecords 2 [sampleCall "analyze" 200 true, sampleCall "upload" 500 false])
      = (eventsOf [sampleCall "analyze" 200 true, sampleCall "upload" 500 false]).reverse.take
          (min (clampLimit RawLimit.missing)
            (min 2 [sampleCall "analyze" 200 true, sampleCall "upload" 500 false].length)) :=
  (C2_fallback_read RawLimit.missing 2 (by decide)
    [sampleCall "analyze" 200 true, sampleCall "upload" 500 false]).1

/-- C8: the `limit` parameter defaults to 50 when not supplied; every
raw value — malformed, non-positive, or above the sane maximum — is
clamped into `[1, MAX_LIMIT]` rather than raised on, values above the
maximum are clamped to the maximum, and the response size is therefore
always bounded by the maximum. -/
theorem C8_limit_default_and_clamp :
    clampLimit RawLimit.missing = 50
    ∧ (∀ r : RawLimit, 1 ≤ clampLimit r ∧ clampLimit r ≤ MAX_LIMIT)
    ∧ (∀ i : Int, (MAX_LIMIT : Int) < i → clampLimit (RawLimit.val i) = MAX_LIMIT)
    ∧ (∀ (r : RawLimit) (db : Bool) (st : RecorderState),
        (getRecentActivity r db st).length ≤ MAX_LIMIT) := by
  refine ⟨rfl, fun r => ⟨clampLimit_pos r, clampLimit_le r⟩, ?_, ?_⟩
  · intro i hi
    rw [clampLimit, if_neg (by omega)]
    rw [MAX_LIMIT] at hi ⊢
    omega
  · intro r db st
    rw [getRecentActivity]
    split
    · rw [List.length_take]
      exact Nat.le_trans (Nat.min_le_left _ _) (clampLimit_le r)
    · rw [List.length_take]
      exact Nat.le_trans (Nat.min_le_left _ _) (clampLimit_le r)

theorem C8_limit_default_and_clamp_witness :
    clampLimit (RawLimit.val 1000) = MAX_LIMIT :=
  C8_limit_default_and_clamp.2.2.1 1000 (by decide)

/-- Modelled from the spec: an explicit heap of `CountersSnapshot` cells
(addresses are indices), so that the spec's "by value (a copy, not a
live reference)" distinction is expressible; the recorder's own counters
occupy one cell. -/
structure CountersHeap where
  cells : List CountersSnapshot
deriving DecidableEq

/-- Read the snapshot stored at address `a`. -/
def readCell (h : CountersHeap) (a : Nat) : CountersSnapshot :=
  h.cells.getD a initCounters

/-- Overwrite the snapshot stored at address `a` (a reader mutating the
object it was handed). -/
def writeCell (h : CountersHeap) (a : Nat) (v : CountersSnapshot) : CountersHeap :=
  ⟨h.cells.set a v⟩

/-- Modelled from the spec: `getCounters()` "returns the current
`CountersSnapshot` by value (a copy, not a live reference)" — a fresh
cell is allocated holding a copy of the recorder's snapshot and the
fresh address, not the recorder's, is handed to the reader. -/
def getCountersByValue (h : CountersHeap) (recorderAddr : Nat) : Nat × CountersHeap :=
  (h.cells.length, ⟨h.cells ++ [readCell h recorderAddr]⟩)

/-- C7: the value `getCounters()` hands out equals the recorder's
current snapshot, yet mutating the returned object — overwriting the
returned cell with any value whatsoever — leaves the recorder's internal
counters cell unchanged, so a subsequent read of the recorder's state
observes it as if the returned value had never been touched. -/
theorem C7_getCounters_copy (h : CountersHeap) (recorderAddr : Nat)
    (hlt : recorderAddr < h.cells.length) :
    readCell (getCountersByValue h recorderAddr).2 (getCountersByValue h recorderAddr).1
        = readCell h recorderAddr
    ∧ (∀ v : CountersSnapshot,
        readCell (writeCell (getCountersByValue h recorderAddr).2
            (getCountersByValue h recorderAddr).1 v) recorderAddr
          = readCell h recorderAddr) := by
  constructor
  · show (h.cells ++ [readCell h recorderAddr]).getD h.cells.length initCounters
        = readCell h recorderAddr
    rw [List.getD_eq_getElem?_getD, List.getElem?_concat_length]
    rfl
  · intro v
    show ((h.cells ++ [readCell h recorderAddr]).set h.cells.length v).getD
        recorderAddr initCounters = readCell h recorderAddr
    rw [List.getD_eq_getElem?_getD,
      List.getElem?_set_ne (by omega),
      List.getElem?_append_left hlt,
      readCell, List.getD_eq_getElem?_getD]

theorem C7_getCounters_copy_witness :
    readCell (getCountersByValue ⟨[initCounters]⟩ 0).2 (getCountersByValue ⟨[initCounters]⟩ 0).1
        = readCell ⟨[initCounters]⟩ 0
    ∧ readCell
        (writeCell (getCountersByValue ⟨[initCounters]⟩ 0).2
          (getCountersByValue ⟨[initCounters]⟩ 0).1 ⟨7, 7, 7, some 7, 7⟩) 0
        = readCell ⟨[initCounters]⟩ 0 :=
  ⟨(C7_getCounters_copy ⟨[initCounters]⟩ 0 (by decide)).1,
    (C7_getCounters_copy ⟨[initCounters]⟩ 0 (by decide)).2 ⟨7, 7, 7, some 7, 7⟩⟩

/-- An activity row as rendered by the dashboard's activity list
(`src/unnamed/part_008`): id, kind, status, timestamp. -/
structure ActivityItem where
  id : String
  kind : String
  status : Nat
  timestamp : String
deriving DecidableEq

/-- The parsed `/api/metrics` response body; `fetchOverview` stores it
without inspecting it, so it is kept as raw key-value data. -/
structure MetricsJson where
  raw : List (String × String)
deriving DecidableEq

/-- The `items` field of the parsed `/api/activity` body: a JSON array
of rows, or any non-array JSON value. -/
inductive ItemsField where
  | arr : List ActivityItem → ItemsField
  | notArray : ItemsField
deriving DecidableEq

/-- The parsed `/api/activity` response body. -/
structure ActivityBody where
  items : ItemsField
deriving DecidableEq

/-- Outcome of one `fetch` call: the promise rejected (network failure),
or it resolved with an `ok` flag and a parsed body. -/
inductive FetchOutcome (β : Type) where
  | rejected : FetchOutcome β
  | response : Bool → β → FetchOutcome β
deriving DecidableEq

/-- The component state touched by `fetchOverview`
(`src/unnamed/part_008`): the `metrics`, `activity`, `loadingOverview`
React state hooks, plus the toasts shown so far. -/
structure OverviewState where
  metrics : Option MetricsJson
  activity : List ActivityItem
  loadingOverview : Bool
  toasts : List String
deriving DecidableEq

/-- Embedded from `src/unnamed/part_008` lines 73–96 (`fetchOverview`):
return early when no backend URL is configured; otherwise set
`loadingOverview`, await both fetches (`Promise.all` — a rejection of
either lands in the catch branch, which only shows a toast), update
`metrics` when the metrics response is ok, update `activity` when the
activity response is ok (replacing a non-array `items` by `[]`), and
reset `loadingOverview` in the `finally` branch. -/
def fetchOverview (hasBackendUrl : Bool) (metricsRes : FetchOutcome MetricsJson)
    (activityRes : FetchOutcome ActivityBody) (st : OverviewState) : OverviewState :=
  if hasBackendUrl = false then st
  else
    let st0 := { st with loadingOverview := true }
    match metricsRes, activityRes with
    | FetchOutcome.response mok mbody, FetchOutcome.response aok abody =>
      let st1 := if mok then { st0 with metrics := some mbody } else st0
      let st2 :=
        if aok then
          { st1 with
            activity :=
              match abody.items with
              | ItemsField.arr xs => xs
              | ItemsField.notArray => [] }
        else st1
      { st2 with loadingOverview := false }
    | _, _ =>
      { st0 with
        toasts := st0.toasts ++ ["Failed to load overview data."]
        loadingOverview := false }

/-- A metrics body used in concrete instances. -/
def cexMetrics : MetricsJson := ⟨[]⟩

/-- The activity row displayed before the refresh in the concrete
instance. -/
def cexItem0 : ActivityItem := ⟨"a0", "analyze", 200, "t0"⟩

/-- The activity row delivered by the refresh in the concrete
instance. -/
def cexItem1 : ActivityItem := ⟨"a1", "upload", 200, "t1"⟩

/-- The dashboard state before the refresh in the concrete instance. -/
def cexState : OverviewState := ⟨some cexMetrics, [cexItem0], false, []⟩

theorem C9_mixed_outcome_counterexample :
    (fetchOverview true (FetchOutcome.response false cexMetrics)
        (FetchOutcome.response true ⟨ItemsField.arr [cexItem1]⟩) cexState).activity
      ≠ cexState.activity := by
  decide

/-- C9 (amended): `fetchOverview` always terminates with
`loadingOverview` false (given the dashboard invariant that it can only
be true while a backend URL is configured); when both fetches resolve
and the activity response is ok, an `items` field that is not an array
is replaced by the empty array; when either
fetch rejects, no exception escapes and both `metrics` and `activity`
are left unchanged; and a non-ok metrics (resp. activity) response
leaves `metrics` (resp. `activity`) unchanged — though the other value
may still be updated by its own ok response. -/
theorem C9_fetchOverview_amended (hasBackendUrl : Bool)
    (metricsRes : FetchOutcome MetricsJson) (activityRes : FetchOutcome ActivityBody)
    (st : OverviewState)
    (hreach : hasBackendUrl = true ∨ st.loadingOverview = false) :
    (fetchOverview hasBackendUrl metricsRes activityRes st).loadingOverview = false
    ∧ (∀ (mok : Bool) (mbody : MetricsJson) (abody : ActivityBody),
        hasBackendUrl = true →
        metricsRes = FetchOutcome.response mok mbody →
        activityRes = FetchOutcome.response true abody →
        abody.items = ItemsField.notArray →
        (fetchOverview hasBackendUrl metricsRes activityRes st).activity = [])
    ∧ ((metricsRes = FetchOutcome.rejected ∨ activityRes = FetchOutcome.rejected) →
        (fetchOverview hasBackendUrl metricsRes activityRes st).metrics = st.metrics
        ∧ (fetchOverview hasBackendUrl metricsRes activityRes st).activity = st.activity)
    ∧ (∀ mbody : MetricsJson, metricsRes = FetchOutcome.response false mbody →
        (fetchOverview hasBackendUrl metricsRes activityRes st).metrics = st.metrics)
    ∧ (∀ abody : ActivityBody, activityRes = FetchOutcome.response false abody →
        (fetchOverview hasBackendUrl metricsRes activityRes st).activity = st.activity) := by
  cases hasBackendUrl with
  | false =>
    have hl : st.loadingOverview = false := by
      rcases hreach with h | h
      · exact absurd h (by simp)
      · exact h
    refine ⟨by simp [fetchOverview, hl], ?_, ?_, ?_, ?_⟩
    · intro mok mbody abody hbu
      exact absurd hbu (by simp)
    · intro _
      exact ⟨by simp [fetchOverview], by simp [fetchOverview]⟩
    · intro mbody _
      simp [fetchOverview]
    · intro abody _
      simp [fetchOverview]
  | true =>
    cases metricsRes with
    | rejected =>
      refine ⟨by simp [fetchOverview], ?_, ?_, ?_, ?_⟩
      · intro mok mbody abody _ hm
        exact absurd hm (by simp)
      · intro _
        exact ⟨by simp [fetchOverview], by simp [fetchOverview]⟩
      · intro mbody hm
        exact absurd hm (by simp)
      · intro abody ha
        subst ha
        simp [fetchOverview]
    | response mok mbody =>
      cases activityRes with
      | rejected =>
        refine ⟨by simp [fetchOverview], ?_, ?_, ?_, ?_⟩
        · intro mok' mbody' abody _ _ ha
          exact absurd ha (by simp)
        · intro _
          exact ⟨by simp [fetchOverview], by simp [fetchOverview]⟩
        · intro mbody' hm
          rw [FetchOutcome.response.injEq] at hm
          obtain ⟨hmf, _⟩ := hm
          subst hmf
          simp [fetchOverview]
        · intro abody ha
          exact absurd ha (by simp)
      | response aok abody =>
        refine ⟨?_, ?_, ?_, ?_, ?_⟩
        · cases mok <;> cases aok <;> simp [fetchOverview]
        · intro mok' mbody' abody' _ _ ha hni
          rw [FetchOutcome.response.injEq] at ha
          obtain ⟨haok, hab⟩ := ha
          subst haok
          subst hab
          cases mok <;> simp [fetchOverview, hni]
        · intro hrej
          rcases hrej with h | h <;> exact absurd h (by simp)
        · intro mbody' hm
          rw [FetchOutcome.response.injEq] at hm
          obtain ⟨hmok, hmb⟩ := hm
          subst hmok
          cases aok <;> simp [fetchOverview]
        · intro abody' ha
          rw [FetchOutcome.response.injEq] at ha
          obtain ⟨haok, hab⟩ := ha
          subst haok
          cases mok <;> simp [fetchOverview]

theorem C9_fetchOverview_amended_witness :
    (fetchOverview true (FetchOutcome.response true cexMetrics)
        (FetchOutcome.response true ⟨ItemsField.notArray⟩) cexState).loadingOverview = false
    ∧ (fetchOverview true (FetchOutcome.response true cexMetrics)
        (FetchOutcome.response true ⟨ItemsField.notArray⟩) cexState).activity = [] :=
  ⟨(C9_fetchOverview_amended true (FetchOutcome.response true cexMetrics)
      (FetchOutcome.response true ⟨ItemsField.notArray⟩) cexState (Or.inl rfl)).1,
    (C9_fetchOverview_amended true (FetchOutcome.response true cexMetrics)
      (FetchOutcome.response true ⟨ItemsField.notArray⟩) cexState (Or.inl rfl)).2.1
      true cexMetrics ⟨ItemsField.notArray⟩ rfl rfl rfl rfl⟩

/-- The default prompt both workspace UIs substitute for an empty
question (`src/unnamed/part_008` line 183, `src/unnamed/part_007`
line 837). -/
def DEFAULT_PROMPT : String :=
  "Analyze this dataset and summarize key insights."

/-- Whitespace as stripped by JavaScript's `String.prototype.trim`
(ASCII whitespace plus no-break space and BOM). -/
def isJsWhitespace (c : Char) : Bool :=
  c == ' ' || c == '\t' || c == '\n' || c == '\r' ||
    c == '\x0b' || c == '\x0c' || c == ' ' || c == '﻿'

/-- JavaScript's `String.prototype.trim`: strip leading and trailing
whitespace. -/
def jsTrim (s : String) : String :=
  String.mk (((s.data.dropWhile isJsWhitespace).reverse.dropWhile isJsWhitespace).reverse)

/-- One part of a multipart form body: field name, attached filename,
content. -/
structure FormPart where
  field : String
  filename : String
  content : String
deriving DecidableEq

/-- Embedded from `src/unnamed/part_008` lines 177–195 (`handleUpload`):
build `qText` as the trimmed question or, when that is empty (JavaScript
`||` on the empty string), the default prompt; wrap it as a virtual
`questions.txt` file; append exactly the two form fields
`questions.txt` and `data.csv`. -/
def handleUploadForm (question selectedFileName selectedFileContent : String) :
    List FormPart :=
  let qText := if jsTrim question = "" then DEFAULT_PROMPT else jsTrim question
  [⟨"questions.txt", "questions.txt", qText⟩,
   ⟨"data.csv", selectedFileName, selectedFileContent⟩]

/-- Embedded from `src/unnamed/part_007` lines 834–850
(`handleAnalyze`): with a selected file, build the same two-field
multipart form; with no file, no form is sent (the question goes out as
a plain message instead). -/
def handleAnalyzeRequest (question : String) (selectedFile : Option (String × String)) :
    Option (List FormPart) :=
  match selectedFile with
  | none => none
  | some (name, content) =>
    let qText := if jsTrim question = "" then DEFAULT_PROMPT else jsTrim question
    some [⟨"questions.txt", "questions.txt", qText⟩, ⟨"data.csv", name, content⟩]

/-- C10: every file upload built by either workspace UI carries exactly
the two multipart fields `questions.txt` and `data.csv`, in that order;
and whenever the question input is empty or only whitespace, the
generated `questions.txt` content is exactly the default prompt — in
both `handleUpload` (part_008) and `handleAnalyze` (part_007), which
then agree on the whole form. -/
theorem C10_upload_form_fields (q fn fc : String) :
    (handleUploadForm q fn fc).map (fun p => p.field) = ["questions.txt", "data.csv"]
    ∧ (handleAnalyzeRequest q (some (fn, fc))).map (fun ps => ps.map (fun p => p.field))
        = some ["questions.txt", "data.csv"]
    ∧ (jsTrim q = "" →
        ((handleUploadForm q fn fc).head?.map (fun p => p.content) = some DEFAULT_PROMPT
          ∧ handleAnalyzeRequest q (some (fn, fc)) = some (handleUploadForm q fn fc))) := by
  refine ⟨by simp [handleUploadForm], by simp [handleAnalyzeRequest], ?_⟩
  intro h
  exact ⟨by simp [handleUploadForm, h], by simp [handleAnalyzeRequest, handleUploadForm, h]⟩

theorem C10_upload_form_fields_witness :
    (handleUploadForm " \t " "sales.csv" "a,b").head?.map (fun p => p.content)
        = some DEFAULT_PROMPT
    ∧ handleAnalyzeRequest " \t " (some ("sales.csv", "a,b"))
        = some (handleUploadForm " \t " "sales.csv" "a,b") :=
  (C10_upload_form_fields " \t " "sales.csv" "a,b").2.2 (by decide)
